import Mathlib

/-!
Verification development for the `RustCamp-BlockChain` repository: a minimal
blockchain ledger engine with pluggable proof-of-work / proof-of-stake
consensus.  The definitions below are a shallow embedding of the Rust source:

* `src/hash.rs`          → `bits_to_target`, `target_to_bits`
* `src/block/mod.rs`     → `BlockHeader`, `Block`, `Transactions.merkle_root`,
                           `Block.validate`, `Block.genesis`, the `Hashable`
                           impl for `Transactions`
* `src/chain/mod.rs`     → `BlockChain` (the rocksdb store is modelled as the
                           height-indexed list of committed block bodies plus
                           the `last_hash` and `height` cells; the
                           content-addressed `block_<hash>` keys are derivable
                           from the bodies, so they are not duplicated)
* `src/chain/pow.rs`     → `BlockChain.adjust_difficulty`
* `src/block/pow.rs`     → `PoW.validate`
* `src/block/pos.rs`     → `PoS.validate`, `PoS.generate_block`,
                           `PoS.select_validator`, the persisted encoding of
                           the `PoS` state

Machine integers (`u32`, `u64`) are modelled as `Nat` with explicit `% 2^w`
where overflow matters; `i64` timestamps are `Int`.  Byte strings are
`List Nat`.  The SHA-256 compression function and the ed25519 primitives are
cryptographic black boxes: they are passed in as parameters (`HashPrim`,
`SigPrim`), and every theorem is stated for an arbitrary choice of them
unless the claim itself depends on a concrete evaluation, in which case a
concrete instance is supplied.  Rust `panic!`/`assert!`/debug-overflow aborts
are modelled as `none` / `Except.error` results.
-/

set_option autoImplicit false

/-- Little-endian byte encoding of a natural number into exactly `n` bytes
(`u32::to_le_bytes`, `u64::to_le_bytes`). -/
def leBytes : Nat → Nat → List Nat
  | 0, _ => []
  | n + 1, v => (v % 256) :: leBytes n (v / 256)

/-- `i64::to_le_bytes`: the timestamp is reduced to its 64-bit two's
complement representation and laid out little-endian. -/
def i64le (t : Int) : List Nat := leBytes 8 (t % (2 ^ 64 : Int)).toNat

/-- `BigUint::from_bytes_be`: interpret a byte string as a big-endian
natural number. -/
def bytesToNatBE (l : List Nat) : Nat := l.foldl (fun acc b => acc * 256 + b) 0

/-- Association-list lookup, modelling `HashMap::get` (iteration order of the
map is modelled by the order of the list). -/
def lookupKV {α β : Type} [DecidableEq α] : List (α × β) → α → Option β
  | [], _ => none
  | (k, v) :: rest, key => if key = k then some v else lookupKV rest key

/-- The SHA-256 primitive, kept abstract: the engine only ever composes it. -/
structure HashPrim where
  sha256 : List Nat → List Nat

/-- Double SHA-256, the repo's `Hashable` hashing discipline for headers. -/
def hash2 (P : HashPrim) (b : List Nat) : List Nat := P.sha256 (P.sha256 b)

/-! ## `src/hash.rs`: compact-bits target codec -/

/-- `COEFF_MASK` from `src/hash.rs` (note: 23 low bits, `0x007f_ffff`). -/
def COEFF_MASK : Nat := 0x7fffff

/-- `bits_to_target` from `src/hash.rs`:

    let exp = (bits >> 24) as u8;
    let coeff = bits & COEFF_MASK;
    assert!(coeff < COEFF_MASK);
    BigUint::from(coeff) << (8 * (exp - 3))

`exp` and the shift are `u8` arithmetic, so `exp < 3` underflows and
`8 * (exp - 3) > 255` overflows; both, like the `assert!`, abort the program
in a debug build and are modelled as `none`.  Shifts and masks are written
with `/`, `%`, `*` on `Nat`. -/
def bits_to_target (bits : Nat) : Option Nat :=
  let exp := bits / 2 ^ 24 % 256
  let coeff := bits % 2 ^ 23
  if coeff < COEFF_MASK then
    if 3 ≤ exp ∧ 8 * (exp - 3) < 256 then
      some (coeff * 2 ^ (8 * (exp - 3)))
    else none
  else none

/-- Byte length of the big-endian encoding of a natural number, as
`BigUint::to_bytes_be(...).len()` computes it (`0` encodes as the single
byte `[0]`, so its length is `1`).  The first argument is recursion fuel;
`byteLenAux n n` always has enough. -/
def byteLenAux : Nat → Nat → Nat
  | 0, _ => 1
  | fuel + 1, n => if n < 256 then 1 else byteLenAux fuel (n / 256) + 1

/-- `target.to_bytes_be().len()`. -/
def natBytesLen (n : Nat) : Nat := byteLenAux n n

/-- The `while size > 3` loop of `target_to_bits`: repeatedly shift the
coefficient right by one byte, decrementing `size`, breaking as soon as the
coefficient fits under `COEFF_MASK`.  Returns the final `(size, max_coeff)`. -/
def shrinkLoop : Nat → Nat → Nat × Nat
  | 0, mc => (0, mc)
  | 1, mc => (1, mc)
  | 2, mc => (2, mc)
  | 3, mc => (3, mc)
  | size + 4, mc =>
    let mc2 := mc / 256
    if mc2 ≤ COEFF_MASK then (size + 3, mc2) else shrinkLoop (size + 3) mc2

/-- `target_to_bits` from `src/hash.rs` (the `len == 0` arm of the source
`match` is unreachable because `to_bytes_be` never returns an empty vector;
`to_u32_digits().first().copied().unwrap_or(COEFF_MASK)` yields `COEFF_MASK`
exactly when the shrunk coefficient is zero, since `to_u32_digits` of zero is
the empty vector). -/
def target_to_bits (target : Nat) : Nat :=
  let len := natBytesLen target
  let sc := shrinkLoop len target
  let coeff := if sc.2 = 0 then COEFF_MASK else sc.2 % 2 ^ 32
  (sc.1 + 3) * 2 ^ 24 ||| coeff

/-- `Ord::clamp` on `Nat` as Rust computes it (`lo ≤ hi` always holds at the
call site in `adjust_difficulty`). -/
def rustClamp (x lo hi : Nat) : Nat := if x < lo then lo else if hi < x then hi else x

/-! ## `src/block/mod.rs`: Merkle root over transaction hashes

`rs_merkle::MerkleTree::from_leaves` with the `Sha256` algorithm: adjacent
nodes are paired left-to-right and hashed with a single SHA-256 over the
concatenation; a trailing node without a sibling is promoted to the next
level unchanged; the root of an empty leaf list is `None` and the root of a
single leaf is that leaf. -/

/-- One level of the Merkle tree: hash adjacent pairs, promote a trailing
odd node. -/
def merkleLevel (P : HashPrim) : List (List Nat) → List (List Nat)
  | [] => []
  | [x] => [x]
  | x :: y :: rest => P.sha256 (x ++ y) :: merkleLevel P rest

/-- Collapse levels until one node remains.  The first argument is recursion
fuel; `leaves.length` is always enough because every level with at least two
nodes strictly shrinks. -/
def merkleGo (P : HashPrim) : Nat → List (List Nat) → List Nat
  | 0, l => l.headD []
  | fuel + 1, l =>
    match l with
    | [] => []
    | [x] => x
    | x :: y :: rest => merkleGo P fuel (merkleLevel P (x :: y :: rest))

/-- `MerkleTree::from_leaves(leaves).root()`. -/
def merkleRootFromLeaves (P : HashPrim) (leaves : List (List Nat)) : Option (List Nat) :=
  match leaves with
  | [] => none
  | _ => some (merkleGo P leaves.length leaves)

/-- `Transactions::merkle_root` (`src/block/mod.rs`): the Merkle root over
the 32-byte hashes of the transactions, in order. -/
def Transactions.merkle_root {τ : Type} (P : HashPrim) (txHash : τ → List Nat)
    (txs : List τ) : Option (List Nat) :=
  merkleRootFromLeaves P (txs.map txHash)

/-- `Hashable::hash` for `Transactions<T>` (`src/block/mod.rs`): the Merkle
root when it exists, otherwise the Merkle root of the singleton list holding
`T::default()`.  The `try_into().unwrap()` conversion to `[u8; 32]` panics
unless the root is exactly 32 bytes; panics are modelled as `none`. -/
def Transactions.hash {τ : Type} (P : HashPrim) (txHash : τ → List Nat)
    (dflt : τ) (txs : List τ) : Option (List Nat) :=
  match Transactions.merkle_root P txHash txs with
  | some root => if root.length = 32 then some root else none
  | none =>
    match Transactions.merkle_root P txHash [dflt] with
    | some root => if root.length = 32 then some root else none
    | none => none

/-- `Hashable::try_hash` for `Transactions<T>` (`src/block/mod.rs`):
`self.merkle_root().and_then(|x| x.try_into().ok())`. -/
def Transactions.try_hash {τ : Type} (P : HashPrim) (txHash : τ → List Nat)
    (txs : List τ) : Option (List Nat) :=
  (Transactions.merkle_root P txHash txs).bind
    (fun x => if x.length = 32 then some x else none)

/-! ## `src/block/mod.rs`: block header, block, structural validation -/

/-- `BlockHeader<D>`: `prev_hash`, `merkle_root`, `timestamp: i64`, and the
consensus-specific payload `data`. -/
structure BlockHeader (δ : Type) where
  prev_hash : List Nat
  merkle_root : List Nat
  timestamp : Int
  data : δ
deriving DecidableEq

/-- `Block<T, H>`: a header plus the ordered transaction list. -/
structure Block (τ δ : Type) where
  header : BlockHeader δ
  txs : List τ
deriving DecidableEq

/-- `Hashable::hash` for `BlockHeader` (`src/block/mod.rs`): double SHA-256
over `prev_hash ‖ merkle_root ‖ timestamp.to_le_bytes() ‖ bincode(data)`,
where `encD` is the deterministic `bincode` encoding of the proof payload. -/
def BlockHeader.hash {δ : Type} (P : HashPrim) (encD : δ → List Nat)
    (h : BlockHeader δ) : List Nat :=
  hash2 P (h.prev_hash ++ h.merkle_root ++ i64le h.timestamp ++ encD h.data)

/-- `Block::merkle_root` (`src/block/mod.rs`): the Merkle root of the
block's own transactions. -/
def Block.merkle_root {τ δ : Type} (P : HashPrim) (txHash : τ → List Nat)
    (b : Block τ δ) : Option (List Nat) :=
  Transactions.merkle_root P txHash b.txs

/-- `Block::validate` (`src/block/mod.rs` lines 87–100):

    prev_valid   = self.header.prev_hash == prev.header.hash()
    time_valid   = self.header.timestamp >= prev.header.timestamp
    merkle_valid = self.merkle_root() == Some(self.header.merkle_root)
                   (an absent root returns false immediately)
    prev_valid && time_valid && merkle_valid -/
def Block.validate {τ δ : Type} (P : HashPrim) (encD : δ → List Nat)
    (txHash : τ → List Nat) (b prev : Block τ δ) : Bool :=
  let prev_valid := b.header.prev_hash == BlockHeader.hash P encD prev.header
  let time_valid := decide (prev.header.timestamp ≤ b.header.timestamp)
  match Block.merkle_root P txHash b with
  | none => false
  | some calcRoot => prev_valid && time_valid && (calcRoot == b.header.merkle_root)

/-- The genesis header (`Block::genesis`, `src/block/mod.rs`): sentinel
`prev_hash` and `merkle_root` equal to the ASCII string `"0"` repeated 64
times (byte `48`), timestamp `1_685_000_000`, and the consensus plug-in's
`genesis_data()` payload `gd`. -/
def genesisHeader {δ : Type} (gd : δ) : BlockHeader δ :=
  { prev_hash := List.replicate 64 48
    merkle_root := List.replicate 64 48
    timestamp := 1685000000
    data := gd }

/-- `Block::genesis`: the genesis header plus `Transactions::test_new()`,
the singleton list holding the default transaction `gtx`. -/
def Block.genesis {τ δ : Type} (gd : δ) (gtx : τ) : Block τ δ :=
  { header := genesisHeader gd, txs := [gtx] }

/-! ## `src/chain/mod.rs`: the chain store

The rocksdb column is modelled by the data it determines: `blocks` is the
list of committed block bodies in height order (height `h` is index `h`),
standing for both the `height_<h> → hash` index and the `block_<hash> → body`
entries (the latter's keys are `hash(blocks[h].header)`); `lastHash` and
`curHeight` are the `last_hash` and `height` cells.  `add_block` performs
all its puts in one `WriteBatch`, so a failed call changes nothing. -/

structure BlockChain (τ δ : Type) where
  curHeight : Nat
  lastHash : List Nat
  blocks : List (Block τ δ)
deriving DecidableEq

/-- `BlockChain::get_block` (`src/chain/mod.rs`): follow the height index to
the stored body; a missing height is a `NotFound` error. -/
def BlockChain.get_block {τ δ : Type} (c : BlockChain τ δ) (h : Nat) :
    Except String (Block τ δ) :=
  match c.blocks[h]? with
  | some b => .ok b
  | none => .error "Block hash not found"

/-- `BlockChain::get_height`: the `height` cell. -/
def BlockChain.get_height {τ δ : Type} (c : BlockChain τ δ) : Nat := c.curHeight

/-- `BlockChain::get_last_block`: the block at the current height. -/
def BlockChain.get_last_block {τ δ : Type} (c : BlockChain τ δ) :
    Except String (Block τ δ) :=
  c.get_block c.get_height

/-- `BlockChain::add_block` (`src/chain/mod.rs` lines 155–172):
`validate_new` (which is `block.validate(&self.get_last_block()?)`, raising
`InvalidBlock` on failure) followed by one atomic batch writing the body,
`last_hash`, the height index entry and the bumped `height`. -/
def BlockChain.add_block {τ δ : Type} (P : HashPrim) (encD : δ → List Nat)
    (txHash : τ → List Nat) (c : BlockChain τ δ) (b : Block τ δ) :
    Except String (BlockChain τ δ) :=
  match c.get_last_block with
  | .error e => .error e
  | .ok last =>
    if Block.validate P encD txHash b last then
      .ok { curHeight := c.curHeight + 1
            lastHash := BlockHeader.hash P encD b.header
            blocks := c.blocks ++ [b] }
    else .error "Invalid block!"

/-- The store contents after an `add_block` call: updated on success, exactly
the pre-call contents when the call returned an error (nothing was written). -/
def BlockChain.post {τ δ : Type} (P : HashPrim) (encD : δ → List Nat)
    (txHash : τ → List Nat) (c : BlockChain τ δ) (b : Block τ δ) :
    BlockChain τ δ :=
  match BlockChain.add_block P encD txHash c b with
  | .ok c2 => c2
  | .error _ => c

/-- The freshly bootstrapped store (`BlockChain::new`): the genesis block at
height `0`, `last_hash` its header hash. -/
def BlockChain.init {τ δ : Type} (P : HashPrim) (encD : δ → List Nat)
    (gd : δ) (gtx : τ) : BlockChain τ δ :=
  { curHeight := 0
    lastHash := BlockHeader.hash P encD (genesisHeader gd)
    blocks := [Block.genesis gd gtx] }

/-- The chain states reachable from a fresh store by successful
`add_block` calls. -/
inductive BlockChain.Reachable {τ δ : Type} (P : HashPrim) (encD : δ → List Nat)
    (txHash : τ → List Nat) (gd : δ) (gtx : τ) : BlockChain τ δ → Prop where
  | genesis : BlockChain.Reachable P encD txHash gd gtx (BlockChain.init P encD gd gtx)
  | step {c : BlockChain τ δ} {b : Block τ δ} {c2 : BlockChain τ δ} :
      BlockChain.Reachable P encD txHash gd gtx c →
      BlockChain.add_block P encD txHash c b = .ok c2 →
      BlockChain.Reachable P encD txHash gd gtx c2

/-! ## `src/block/pow.rs`: proof-of-work consensus -/

/-- `PoWData`: the proof payload carried in a PoW header, `bits: u32` and
`nonce: u64`. -/
structure PoWData where
  bits : Nat
  nonce : Nat
deriving DecidableEq

/-- `bincode` wire encoding of `PoWData`: `bits` as 4 bytes LE then `nonce`
as 8 bytes LE. -/
def encPoWData (d : PoWData) : List Nat := leBytes 4 d.bits ++ leBytes 8 d.nonce

/-- `PoW` (`src/block/pow.rs`): the PoW consensus state; only `cur_bits`
varies, the rest is configuration. -/
structure PoW where
  target_timespan : Nat
  difficulty_adjust_interval : Nat
  initial_difficulty : Nat
  allow_mining_reward : Bool
  block_reward : Nat
  cur_bits : Nat
deriving DecidableEq

/-- `Consensus::validate` for `PoW` (`src/block/pow.rs` lines 53–56):

    let target = bits_to_target(self.cur_bits);
    BigUint::from_bytes_be(&block.header.hash()) <= target

Note the target is decoded from the state's `cur_bits`, not from the block's
own `proof.bits`.  A panic inside `bits_to_target` is modelled as `none`. -/
def PoW.validate {τ : Type} (P : HashPrim)
    (pow : PoW) (b : Block τ PoWData) : Option Bool :=
  match bits_to_target pow.cur_bits with
  | none => none
  | some target =>
    some (decide (bytesToNatBE (BlockHeader.hash P encPoWData b.header) ≤ target))

/-- The `blockchain_control` constants (`src/chain/mod.rs`). -/
def TARGET_TIME_SPAN : Nat := 120

/-- `DIFFICULTY_ADJUST_INTERVAL` from `blockchain_control`. -/
def DIFFICULTY_ADJUST_INTERVAL : Nat := 10

/-- `DEFAULT_DIFFICULTY` from `blockchain_control` (`src/chain/mod.rs`). -/
def DEFAULT_DIFFICULTY : Nat := 0x1f00ffff

/-- `PoWConfig` (`src/chain/consensus.rs`): every field but `cur_bits` is
`#[serde(skip)]` configuration. -/
structure PoWConfig where
  target_timespan : Nat
  difficulty_adjust_interval : Nat
  initial_difficulty : Nat
  allow_mining_reward : Bool
  block_reward : Nat
  cur_bits : Nat
deriving DecidableEq

/-- `PoWConfig::default` (`src/chain/consensus.rs`). -/
def PoWConfig.dflt : PoWConfig :=
  { target_timespan := TARGET_TIME_SPAN
    difficulty_adjust_interval := DIFFICULTY_ADJUST_INTERVAL
    initial_difficulty := DEFAULT_DIFFICULTY
    allow_mining_reward := true
    block_reward := 50
    cur_bits := DEFAULT_DIFFICULTY }

/-- `BlockChain<PoWConfig>` (`src/chain/pow.rs`): the store plus the PoW
consensus state (`self.cs`, dereferencing to its `PoWConfig`). -/
structure PoWChain (τ : Type) where
  chain : BlockChain τ PoWData
  cs : PoWConfig
deriving DecidableEq

/-- `BlockChain::adjust_difficulty` (`src/chain/pow.rs` lines 9–29):

    let height = self.get_height()?;
    if height % self.cs.difficulty_adjust_interval != 0 || height == 0 {
        return Ok(self.cs.cur_bits);
    }
    let first_block = self.get_block(height - DIFFICULTY_ADJUST_INTERVAL)?;
    let last_block = self.get_last_block()?;
    let actual_span = (last.timestamp - first.timestamp).max(1);
    let prev_target = bits_to_target(first.proof.bits);
    let new_target = prev_target * TARGET_TIME_SPAN / actual_span as u64;
    let new_target = new_target.clamp(prev_target / 4, prev_target * 4);
    let new_bits = target_to_bits(new_target);
    self.db.put(CUR_STATE, new_bits); self.cs.cur_bits = new_bits;

The modulus uses the configured interval while the lookback offset uses the
`blockchain_control` constant, exactly as the source does.  The `u64`
remainder-by-zero and subtraction-underflow panics of a debug build, and the
`assert!` inside `bits_to_target`, are modelled as errors.  The `CUR_STATE`
put is modelled by the `cur_bits` update in the returned state. -/
def BlockChain.adjust_difficulty {τ : Type} (pc : PoWChain τ) :
    Except String (Nat × PoWChain τ) :=
  let height := pc.chain.get_height
  if pc.cs.difficulty_adjust_interval = 0 then .error "panic: remainder by zero"
  else if height % pc.cs.difficulty_adjust_interval ≠ 0 ∨ height = 0 then
    .ok (pc.cs.cur_bits, pc)
  else if height < DIFFICULTY_ADJUST_INTERVAL then .error "panic: subtraction underflow"
  else
    match pc.chain.get_block (height - DIFFICULTY_ADJUST_INTERVAL) with
    | .error e => .error e
    | .ok first =>
      match pc.chain.get_last_block with
      | .error e => .error e
      | .ok last =>
        let actual_span : Int := max (last.header.timestamp - first.header.timestamp) 1
        match bits_to_target first.header.data.bits with
        | none => .error "panic: assertion failed in bits_to_target"
        | some prev_target =>
          let new_target := prev_target * TARGET_TIME_SPAN / actual_span.toNat
          let new_target2 := rustClamp new_target (prev_target / 4) (prev_target * 4)
          let new_bits := target_to_bits new_target2
          .ok (new_bits, { pc with cs := { pc.cs with cur_bits := new_bits } })

/-! ## `src/block/pos.rs`: proof-of-stake consensus

Public keys, secret keys and signatures are byte strings; the ed25519
operations are a black box `SigPrim`.  The PRNG draw inside validator
selection is surfaced as an explicit argument `r` (the source draws
`random_range(0..total)`; the model uses `r % total`). -/

/-- The ed25519 primitives: `sign secret msg`, `verify pubkey msg sig`. -/
structure SigPrim where
  sign : List Nat → List Nat → List Nat
  verify : List Nat → List Nat → List Nat → Bool

/-- `PoSData` (`src/block/pos.rs`): the proof payload of a PoS header. -/
structure PoSData where
  validator_key : List Nat
  signature : List Nat
deriving DecidableEq

/-- `bincode` wire encoding of `PoSData`: the 32 public-key bytes then the
64 signature bytes. -/
def encPoSData (d : PoSData) : List Nat := d.validator_key ++ d.signature

/-- `PoS::genesis_data` (`src/block/pos.rs`): the all-zero public key and
the all-zero signature. -/
def PoS.genesis_data : PoSData :=
  { validator_key := List.replicate 32 0, signature := List.replicate 64 0 }

/-- `PoS` (`src/block/pos.rs` lines 74–93): the PoS consensus state.  Every
field except `cur_validators` carries `#[serde(skip)]`; in particular the
secret-key map `validator_keys` is in-memory only.  The `f64` field
`annual_interest_rate` is never used arithmetically by the modelled
operations and is carried as an opaque integer placeholder. -/
structure PoS where
  min_stake_amount : Nat
  stake_lock_period : Nat
  annual_interest_rate : Int
  validator_count : Nat
  epoch_length : Nat
  security_deposit : Nat
  cur_validators : List (List Nat × Nat)
  validator_keys : List (List Nat × List Nat)
deriving DecidableEq

/-- The persisted `bincode` encoding of the `PoS` state: serde serialises
only the fields without `#[serde(skip)]`, i.e. exactly the `cur_validators`
map — its length followed by each `(public key, u64 stake)` entry. -/
def PoS.encode_state (pos : PoS) : List Nat :=
  leBytes 8 pos.cur_validators.length ++
    (pos.cur_validators.map (fun p => p.1 ++ leBytes 8 p.2)).flatten

/-- The subtract-and-compare scan of `PoS::select_validator`: return the
first validator whose stake exceeds the remaining randomness. -/
def selectLoop : Nat → List (List Nat × Nat) → Option (List Nat)
  | _, [] => none
  | r, (pub_key, stake) :: rest =>
    if r < stake then some pub_key else selectLoop (r - stake) rest

/-- `PoS::select_validator` (`src/block/pos.rs` lines 143–160): fail when
the total stake is zero, otherwise draw `r ∈ [0, total)` and scan. -/
def PoS.select_validator (pos : PoS) (r : Nat) : Option (List Nat) :=
  let total_stake := (pos.cur_validators.map (fun p => p.2)).sum
  if total_stake = 0 then none
  else selectLoop (r % total_stake) pos.cur_validators

/-- `Consensus::validate` for `PoS` (`src/block/pos.rs` lines 166–177):

    let has_stake = cur_validators.get(&pub_key)
                      .map_or(false, |&stake| stake >= self.min_stake_amount);
    pub_key.verify(&block.header.hash(), &signature).is_ok() && has_stake

Note the verified message is the hash of the full header — whose serialised
`data` field contains the signature itself — not a presign hash. -/
def PoS.validate {τ : Type} (S : SigPrim) (P : HashPrim)
    (pos : PoS) (b : Block τ PoSData) : Bool :=
  let pub_key := b.header.data.validator_key
  let signature := b.header.data.signature
  let has_stake :=
    match lookupKV pos.cur_validators pub_key with
    | some stake => decide (pos.min_stake_amount ≤ stake)
    | none => false
  S.verify pub_key (BlockHeader.hash P encPoSData b.header) signature && has_stake

/-- `Consensus::generate_block` for `PoS` (`src/block/pos.rs` lines
179–212): select a validator, fetch its secret key, sign the hash of the
*previous* block's header, build the new header around that signature.
`r` is the PRNG draw, `now` the wall-clock timestamp. -/
def PoS.generate_block {τ : Type} (S : SigPrim) (P : HashPrim)
    (txHash : τ → List Nat) (pos : PoS) (prev : Block τ PoSData)
    (txs : List τ) (r : Nat) (now : Int) : Except String (Block τ PoSData) :=
  match PoS.select_validator pos r with
  | none => .error "No validator selected"
  | some validator_pubkey =>
    match lookupKV pos.validator_keys validator_pubkey with
    | none => .error "No secret key found"
    | some secret_key =>
      let prevHash := BlockHeader.hash P encPoSData prev.header
      let signature := S.sign secret_key prevHash
      match Transactions.merkle_root P txHash txs with
      | none => .error "No merkle root found"
      | some root =>
        .ok { header := { prev_hash := prevHash
                          merkle_root := root
                          timestamp := now
                          data := { validator_key := validator_pubkey
                                    signature := signature } }
              txs := txs }

/-! ## Claim C7: decoding the compact-bits form -/

/-- C7 (counterexample): the claim promises that any 32-bit value whose
exponent byte is at least `3` and whose low-24-bit coefficient is below
`2^23` decodes without panicking, but `0x037fffff` has exponent `3` and
coefficient `2^23 - 1 < 2^23` and still trips the strict
`assert!(coeff < COEFF_MASK)`. -/
theorem bits_to_target_panics_at_mask :
    0x037fffff / 2 ^ 24 = 3 ∧ 0x037fffff % 2 ^ 24 < 2 ^ 23 ∧
      bits_to_target 0x037fffff = none := by decide

/-- C7 (amended): for a 32-bit `bits` whose exponent byte `E` lies in
`[3, 34]` (so the `u8` shift amount `8 * (E - 3)` does not overflow) and
whose low-24-bit coefficient `C` is *strictly below* `2^23 - 1` (the
`assert!` uses `<`), `bits_to_target` succeeds and returns
`C * 2^(8 * (E - 3))`. -/
theorem bits_to_target_decodes_compact (bits : Nat) (_hb : bits < 2 ^ 32)
    (hE3 : 3 ≤ bits / 2 ^ 24) (hE34 : bits / 2 ^ 24 ≤ 34)
    (hC : bits % 2 ^ 24 < 2 ^ 23 - 1) :
    bits_to_target bits = some ((bits % 2 ^ 24) * 2 ^ (8 * (bits / 2 ^ 24 - 3))) := by
  have hm : bits % 2 ^ 24 % 2 ^ 23 = bits % 2 ^ 23 :=
    Nat.mod_mod_of_dvd bits (by norm_num)
  have h23 : bits % 2 ^ 23 = bits % 2 ^ 24 := by
    have h1 : bits % 2 ^ 24 % 2 ^ 23 = bits % 2 ^ 24 :=
      Nat.mod_eq_of_lt (by omega)
    omega
  have hElt : bits / 2 ^ 24 < 256 := by omega
  simp only [bits_to_target, COEFF_MASK, Nat.mod_eq_of_lt hElt, h23]
  rw [if_pos (by omega), if_pos ⟨hE3, by omega⟩]

/-- C7 (witness): the default difficulty `0x1f00ffff` decodes to
`0xffff * 2^224`. -/
theorem bits_to_target_decodes_compact_witness :
    bits_to_target 0x1f00ffff = some (65535 * 2 ^ 224) := by
  have h := bits_to_target_decodes_compact 0x1f00ffff (by norm_num) (by norm_num)
    (by norm_num) (by norm_num)
  simpa using h

/-! ## Claim C6: the compact round trip -/

/-- C6: the compact round trip neither preserves order nor approximates the
identity.  `8388606 < 16777216`, yet encoding and decoding maps the smaller
target to `8388606 * 2^24` and the larger one to `65536 * 2^24`, inverting
the order (and inflating both targets by at least `2^24`). -/
theorem target_bits_round_trip_breaks_order :
    (8388606 : Nat) < 16777216 ∧
    bits_to_target (target_to_bits 8388606) = some (8388606 * 2 ^ 24) ∧
    bits_to_target (target_to_bits 16777216) = some (65536 * 2 ^ 24) ∧
    65536 * 2 ^ 24 < 8388606 * 2 ^ 24 := by decide

/-! ## Claim C9: the persisted PoS state omits the secret keys -/

/-- C9: the persisted encoding of a `PoS` state is a function of
`cur_validators` alone; states differing only in `validator_keys` or in the
`#[serde(skip)]` configuration fields encode identically, so validator
secret keys never reach the store. -/
theorem pos_state_encoding_ignores_secrets (p1 p2 : PoS)
    (h : p1.cur_validators = p2.cur_validators) :
    PoS.encode_state p1 = PoS.encode_state p2 := by
  simp [PoS.encode_state, h]

/-- A PoS state with one registered validator and no in-memory secret keys. -/
def posStateNoKeys : PoS :=
  { min_stake_amount := 1000, stake_lock_period := 10000, annual_interest_rate := 1
    validator_count := 5, epoch_length := 100, security_deposit := 100
    cur_validators := [([1, 2], 60)], validator_keys := [] }

/-- The same validator set with a secret key held and different config. -/
def posStateWithKeys : PoS :=
  { min_stake_amount := 0, stake_lock_period := 0, annual_interest_rate := 2
    validator_count := 0, epoch_length := 0, security_deposit := 0
    cur_validators := [([1, 2], 60)], validator_keys := [([1, 2], [9, 9])] }

/-- C9 (witness): two concrete states with equal validator maps but
different secret-key maps and configuration serialise to the same bytes. -/
theorem pos_state_encoding_ignores_secrets_witness :
    PoS.encode_state posStateNoKeys = PoS.encode_state posStateWithKeys ∧
      posStateNoKeys.validator_keys ≠ posStateWithKeys.validator_keys :=
  ⟨pos_state_encoding_ignores_secrets posStateNoKeys posStateWithKeys rfl, by decide⟩

/-! ## Claim C10: hashing an empty transaction list -/

/-- C10: for any transaction type with a default element whose hash is 32
bytes, `Hashable::hash` on the empty `Transactions` does not fail: it falls
back to the Merkle root of `[T::default()]` (which is the default
transaction's own leaf hash), so the empty list and the singleton default
list hash identically, while `try_hash` on the empty list is `None`. -/
theorem txs_hash_empty_defaults {τ : Type} (P : HashPrim) (txHash : τ → List Nat)
    (dflt : τ) (h32 : (txHash dflt).length = 32) :
    Transactions.hash P txHash dflt [] = some (txHash dflt) ∧
    Transactions.hash P txHash dflt [] = Transactions.hash P txHash dflt [dflt] ∧
    Transactions.try_hash P txHash ([] : List τ) = none := by
  have hsingle : Transactions.merkle_root P txHash [dflt] = some (txHash dflt) := by
    simp [Transactions.merkle_root, merkleRootFromLeaves, merkleGo]
  have hempty : Transactions.merkle_root P txHash ([] : List τ) = none := rfl
  refine ⟨?_, ?_, ?_⟩
  · simp [Transactions.hash, hempty, hsingle, h32]
  · simp [Transactions.hash, hempty, hsingle, h32]
  · simp [Transactions.try_hash, hempty]

/-- C10 (witness): with a concrete 32-byte leaf hash the empty list hashes
to the default transaction's leaf. -/
theorem txs_hash_empty_defaults_witness :
    Transactions.hash ⟨fun l => l⟩ (fun _ => List.replicate 32 7) () [] =
      some (List.replicate 32 7) :=
  (txs_hash_empty_defaults ⟨fun l => l⟩ (fun _ => List.replicate 32 7) ()
    (by decide)).1

/-! ## Claim C3: what `PoW::validate` actually compares against -/

/-- C3 (amended): PoW consensus validation succeeds exactly when the header
hash, read big-endian, is at most `bits_to_target` of the *consensus
state's* `cur_bits`; the block's own `proof.bits` field is never consulted. -/
theorem pow_validate_checks_state_bits {τ : Type} (P : HashPrim)
    (pow : PoW) (b : Block τ PoWData) :
    PoW.validate P pow b = some true ↔
      ∃ t, bits_to_target pow.cur_bits = some t ∧
        bytesToNatBE (BlockHeader.hash P encPoWData b.header) ≤ t := by
  unfold PoW.validate
  cases h : bits_to_target pow.cur_bits with
  | none => simp
  | some t => simp

/-- A hash primitive that sends every byte string to the single byte `255`,
used to evaluate the consensus checks on concrete inputs. -/
def constHash255 : HashPrim := ⟨fun _ => [255]⟩

/-- A PoW state whose current compact bits decode to the target `256`. -/
def powStateBig : PoW :=
  { target_timespan := TARGET_TIME_SPAN
    difficulty_adjust_interval := DIFFICULTY_ADJUST_INTERVAL
    initial_difficulty := DEFAULT_DIFFICULTY
    allow_mining_reward := true
    block_reward := 50
    cur_bits := 0x04000001 }

/-- A PoW block whose own proof carries compact bits decoding to target `1`. -/
def powBlockSmallBits : Block Unit PoWData :=
  { header := { prev_hash := [], merkle_root := [], timestamp := 0
                data := { bits := 0x03000001, nonce := 0 } }
    txs := [] }

/-- C3 (counterexample): with the header hash evaluating to `255`, a state
whose `cur_bits` decode to `256` accepts a block whose own `proof.bits`
decode to `1` — validation succeeds although the hash exceeds the target
encoded in the block's own bits field, refuting the claim that validation
is equivalent to the check against `header.proof.bits`. -/
theorem pow_validate_ignores_block_bits :
    PoW.validate constHash255 powStateBig powBlockSmallBits = some true ∧
    bits_to_target powBlockSmallBits.header.data.bits = some 1 ∧
    ¬ bytesToNatBE (BlockHeader.hash constHash255 encPoWData
        powBlockSmallBits.header) ≤ 1 := by decide

/-! ## Claim C4: the PoS signature discipline -/

/-- A degenerate signature scheme for concrete evaluation: the signature of
a message is the message itself and verification just compares the two.
Any sound scheme separates distinct messages at least this well. -/
def echoSig : SigPrim := { sign := fun _ m => m, verify := fun _ m s => s == m }

/-- The identity "hash", making header hashes their serialised bytes. -/
def idHash : HashPrim := ⟨fun l => l⟩

/-- The transaction hash used for concrete blocks: a constant 32-byte leaf. -/
def zeroLeaf : Unit → List Nat := fun _ => List.replicate 32 0

/-- A PoS state with a single validator `[1]` (stake 5, key `[9]` held) and
no minimum stake, so only the signature check can reject. -/
def posOneValidator : PoS :=
  { min_stake_amount := 0, stake_lock_period := 0, annual_interest_rate := 0
    validator_count := 0, epoch_length := 0, security_deposit := 0
    cur_validators := [([1], 5)], validator_keys := [([1], [9])] }

/-- The previous (genesis) PoS block. -/
def posPrevBlock : Block Unit PoSData := Block.genesis PoS.genesis_data ()

/-- The block `PoS::generate_block` produces from `posPrevBlock`: its
signature is the validator's signature over the hash of the *previous*
header. -/
def posGeneratedBlock : Block Unit PoSData :=
  { header := { prev_hash := BlockHeader.hash idHash encPoSData posPrevBlock.header
                merkle_root := List.replicate 32 0
                timestamp := 1685000001
                data := { validator_key := [1]
                          signature := echoSig.sign [9]
                            (BlockHeader.hash idHash encPoSData posPrevBlock.header) } }
    txs := [()] }

set_option maxRecDepth 8000 in
/-- C4: evaluated concretely, `PoS::generate_block` signs the hash of the
previous block's header — not the presign hash (the new header with a
zeroed signature field) — while `PoS::validate` verifies the signature
against the hash of the *full new header*, whose serialised payload contains
the signature itself.  The two messages necessarily differ, so the very
block the engine generates fails its own consensus validation. -/
theorem pos_validate_rejects_generated :
    PoS.generate_block echoSig idHash zeroLeaf posOneValidator posPrevBlock
        [()] 0 1685000001 = .ok posGeneratedBlock ∧
    posGeneratedBlock.header.data.signature =
      echoSig.sign [9] (BlockHeader.hash idHash encPoSData posPrevBlock.header) ∧
    PoS.validate echoSig idHash posOneValidator posGeneratedBlock = false := by
  refine ⟨rfl, rfl, by decide⟩

/-! ## Chain-level helper lemmas -/

/-- `get_block` succeeds exactly on stored heights, returning the stored
body. -/
theorem BlockChain.get_block_ok_iff {τ δ : Type} (c : BlockChain τ δ) (n : Nat)
    (x : Block τ δ) : c.get_block n = .ok x ↔ c.blocks[n]? = some x := by
  unfold BlockChain.get_block
  cases h : c.blocks[n]? <;> simp

/-- A failed structural check with the previous-hash comparison already
broken: `Block::validate` returns `false`. -/
theorem Block.validate_false_of_prev_hash_ne {τ δ : Type} (P : HashPrim)
    (encD : δ → List Nat) (txHash : τ → List Nat) (b prev : Block τ δ)
    (h : b.header.prev_hash ≠ BlockHeader.hash P encD prev.header) :
    Block.validate P encD txHash b prev = false := by
  unfold Block.validate
  cases hm : Block.merkle_root P txHash b with
  | none => rfl
  | some root => simp [h]

/-- Anatomy of a successful `add_block`: the previous block was read back,
the candidate validates against it, and the store gained exactly the new
body, index entry, `last_hash` and bumped height. -/
theorem BlockChain.add_block_ok_elim {τ δ : Type} {P : HashPrim}
    {encD : δ → List Nat} {txHash : τ → List Nat} {c : BlockChain τ δ}
    {b : Block τ δ} {c2 : BlockChain τ δ}
    (h : BlockChain.add_block P encD txHash c b = .ok c2) :
    ∃ last, c.get_last_block = .ok last ∧
      Block.validate P encD txHash b last = true ∧
      c2 = { curHeight := c.curHeight + 1
             lastHash := BlockHeader.hash P encD b.header
             blocks := c.blocks ++ [b] } := by
  unfold BlockChain.add_block at h
  cases hl : c.get_last_block with
  | error e => rw [hl] at h; cases h
  | ok last =>
    rw [hl] at h
    dsimp only at h
    by_cases hv : Block.validate P encD txHash b last = true
    · rw [if_pos hv] at h
      cases h
      exact ⟨last, rfl, hv, rfl⟩
    · rw [if_neg hv] at h; cases h

/-- The three structural facts encoded in a `true` result of
`Block::validate`. -/
theorem Block.validate_true_elim {τ δ : Type} {P : HashPrim}
    {encD : δ → List Nat} {txHash : τ → List Nat} {b prev : Block τ δ}
    (h : Block.validate P encD txHash b prev = true) :
    b.header.prev_hash = BlockHeader.hash P encD prev.header ∧
    prev.header.timestamp ≤ b.header.timestamp ∧
    Transactions.merkle_root P txHash b.txs = some b.header.merkle_root := by
  unfold Block.validate at h
  cases hm : Block.merkle_root P txHash b with
  | none => rw [hm] at h; cases h
  | some root =>
    rw [hm] at h
    simp only [Bool.and_eq_true, beq_iff_eq, decide_eq_true_eq] at h
    refine ⟨h.1.1, h.1.2, ?_⟩
    have := h.2
    unfold Block.merkle_root at hm
    rw [hm, this]

/-- In every reachable state the stored height cell is one less than the
number of committed bodies. -/
theorem BlockChain.reachable_height {τ δ : Type} {P : HashPrim}
    {encD : δ → List Nat} {txHash : τ → List Nat} {gd : δ} {gtx : τ}
    {c : BlockChain τ δ}
    (h : BlockChain.Reachable P encD txHash gd gtx c) :
    c.curHeight + 1 = c.blocks.length := by
  induction h with
  | genesis => rfl
  | step hr hadd ih =>
    obtain ⟨last, _, _, rfl⟩ := BlockChain.add_block_ok_elim hadd
    simp only [List.length_append, List.length_cons, List.length_nil]
    omega

/-! ## Claim C1: structural invariants of every reachable chain -/

/-- C1: every block accepted by `add_block` satisfies the structural checks
against the tip it extended — its `prev_hash` equals the double-SHA-256
header hash of the previous block, its timestamp is at least the previous
timestamp, and the Merkle root recomputed over its transactions equals its
header's `merkle_root` — and consequently every reachable chain state
satisfies these hash-link, timestamp-monotonicity and Merkle-commitment
conditions for every non-genesis (adjacent) pair of stored blocks. -/
theorem chain_structural_invariant {τ δ : Type} (P : HashPrim)
    (encD : δ → List Nat) (txHash : τ → List Nat) (gd : δ) (gtx : τ) :
    (∀ (c : BlockChain τ δ) (b : Block τ δ) (c2 : BlockChain τ δ)
        (last : Block τ δ),
      BlockChain.add_block P encD txHash c b = .ok c2 →
      c.get_last_block = .ok last →
      b.header.prev_hash = BlockHeader.hash P encD last.header ∧
      last.header.timestamp ≤ b.header.timestamp ∧
      Transactions.merkle_root P txHash b.txs = some b.header.merkle_root) ∧
    (∀ c : BlockChain τ δ, BlockChain.Reachable P encD txHash gd gtx c →
      ∀ (h : Nat) (prev b : Block τ δ),
        c.blocks[h]? = some prev → c.blocks[h + 1]? = some b →
        b.header.prev_hash = BlockHeader.hash P encD prev.header ∧
        prev.header.timestamp ≤ b.header.timestamp ∧
        Transactions.merkle_root P txHash b.txs = some b.header.merkle_root) := by
  constructor
  · intro c b c2 last hadd hlast
    obtain ⟨last2, hl2, hv, _⟩ := BlockChain.add_block_ok_elim hadd
    rw [hlast] at hl2
    cases hl2
    exact Block.validate_true_elim hv
  · intro c hr
    induction hr with
    | genesis =>
      intro h prev b _ hb
      have : (BlockChain.init P encD gd gtx).blocks.length ≤ h + 1 := by
        simp [BlockChain.init]
      rw [List.getElem?_eq_none this] at hb
      cases hb
    | @step cc bb cc2 hr2 hadd ih =>
      obtain ⟨last, hl, hv, rfl⟩ := BlockChain.add_block_ok_elim hadd
      intro h prev b hp hb
      by_cases hlt : h + 1 < cc.blocks.length
      · have hp2 : cc.blocks[h]? = some prev := by
          rw [List.getElem?_append_left (by omega)] at hp
          exact hp
        have hb2 : cc.blocks[h + 1]? = some b := by
          rw [List.getElem?_append_left hlt] at hb
          exact hb
        exact ih h prev b hp2 hb2
      · by_cases heq : h + 1 = cc.blocks.length
        · have hb3 : b = bb := by
            rw [heq, List.getElem?_concat_length] at hb
            cases hb
            rfl
          have hhc : cc.curHeight = h := by
            have := BlockChain.reachable_height hr2
            omega
          have hlast2 : cc.blocks[h]? = some last := by
            have := (BlockChain.get_block_ok_iff cc cc.curHeight last).mp hl
            rwa [hhc] at this
          have hp3 : prev = last := by
            have hp2 : cc.blocks[h]? = some prev := by
              rw [List.getElem?_append_left (by omega)] at hp
              exact hp
            rw [hp2] at hlast2
            cases hlast2
            rfl
          subst hb3
          subst hp3
          exact Block.validate_true_elim hv
        · have : (cc.blocks ++ [bb]).length ≤ h + 1 := by
            simp only [List.length_append, List.length_cons, List.length_nil]
            omega
          rw [List.getElem?_eq_none this] at hb
          cases hb

/-- Trivial payload encoding for concrete `Unit`-proof chains. -/
def unitEnc : Unit → List Nat := fun _ => []

/-- A concrete genesis block over unit transactions and unit proof data. -/
def wGenesis : Block Unit Unit := Block.genesis () ()

/-- A concrete successor block that validates against `wGenesis`. -/
def wNext : Block Unit Unit :=
  { header := { prev_hash := BlockHeader.hash idHash unitEnc wGenesis.header
                merkle_root := List.replicate 32 0
                timestamp := 1685000000
                data := () }
    txs := [()] }

/-- The freshly bootstrapped concrete chain. -/
def wChain0 : BlockChain Unit Unit := BlockChain.init idHash unitEnc () ()

/-- The concrete chain after committing `wNext`. -/
def wChain1 : BlockChain Unit Unit :=
  { curHeight := 1
    lastHash := BlockHeader.hash idHash unitEnc wNext.header
    blocks := [wGenesis, wNext] }

set_option maxRecDepth 8000 in
/-- C1 (witness): the two-block reachable chain `wChain1` satisfies the
structural invariants at its single non-genesis height. -/
theorem chain_structural_invariant_witness :
    wNext.header.prev_hash = BlockHeader.hash idHash unitEnc wGenesis.header ∧
    wGenesis.header.timestamp ≤ wNext.header.timestamp ∧
    Transactions.merkle_root idHash zeroLeaf wNext.txs = some wNext.header.merkle_root := by
  have hadd : BlockChain.add_block idHash unitEnc zeroLeaf wChain0 wNext = .ok wChain1 := rfl
  have hr : BlockChain.Reachable idHash unitEnc zeroLeaf () () wChain1 :=
    BlockChain.Reachable.step BlockChain.Reachable.genesis hadd
  exact (chain_structural_invariant idHash unitEnc zeroLeaf () ()).2 wChain1 hr 0
    wGenesis wNext rfl rfl

/-! ## Claim C2: failed validation writes nothing -/

/-- C2: when validation fails inside `add_block` — in particular whenever
the candidate's `prev_hash` differs from the header hash of the current tip
— the call returns the invalid-block error and performs no writes: the
stored height, `last_hash`, height index and block bodies after the call
are exactly the pre-call contents. -/
theorem add_block_rejects_without_writes {τ δ : Type} (P : HashPrim)
    (encD : δ → List Nat) (txHash : τ → List Nat) (c : BlockChain τ δ)
    (b last : Block τ δ)
    (hlast : c.get_last_block = .ok last)
    (hbad : Block.validate P encD txHash b last = false ∨
            b.header.prev_hash ≠ BlockHeader.hash P encD last.header) :
    BlockChain.add_block P encD txHash c b = .error "Invalid block!" ∧
    (BlockChain.post P encD txHash c b).curHeight = c.curHeight ∧
    (BlockChain.post P encD txHash c b).lastHash = c.lastHash ∧
    (BlockChain.post P encD txHash c b).blocks = c.blocks := by
  have hval : Block.validate P encD txHash b last = false := by
    rcases hbad with h | h
    · exact h
    · exact Block.validate_false_of_prev_hash_ne P encD txHash b last h
  have herr : BlockChain.add_block P encD txHash c b = .error "Invalid block!" := by
    unfold BlockChain.add_block
    rw [hlast]
    dsimp only
    rw [if_neg (by simp [hval])]
  refine ⟨herr, ?_, ?_, ?_⟩ <;> simp [BlockChain.post, herr]

/-- A candidate whose `prev_hash` does not match the tip of `wChain0`. -/
def wBadBlock : Block Unit Unit :=
  { header := { prev_hash := [1]
                merkle_root := List.replicate 32 0
                timestamp := 1685000001
                data := () }
    txs := [()] }

set_option maxRecDepth 8000 in
/-- C2 (witness): on the concrete fresh chain, the mismatched candidate is
rejected with the invalid-block error and the store is untouched. -/
theorem add_block_rejects_without_writes_witness :
    BlockChain.add_block idHash unitEnc zeroLeaf wChain0 wBadBlock =
      .error "Invalid block!" ∧
    (BlockChain.post idHash unitEnc zeroLeaf wChain0 wBadBlock).curHeight =
      wChain0.curHeight ∧
    (BlockChain.post idHash unitEnc zeroLeaf wChain0 wBadBlock).lastHash =
      wChain0.lastHash ∧
    (BlockChain.post idHash unitEnc zeroLeaf wChain0 wBadBlock).blocks =
      wChain0.blocks :=
  add_block_rejects_without_writes idHash unitEnc zeroLeaf wChain0 wBadBlock
    wGenesis rfl (Or.inr (by decide))


/-! ## Claim C5: difficulty retargeting -/

/-- C5: `adjust_difficulty` returns `cur_bits` unchanged whenever the
height is not a positive multiple of `DIFFICULTY_ADJUST_INTERVAL`;
otherwise it recodes as compact bits the previous target (decoded from the
bits of the block one interval back) scaled by
`TARGET_TIME_SPAN / max(1, last.timestamp - first.timestamp)` and clamped to
`[prev_target/4, prev_target*4]`, persisting the result as the new
`cur_bits`.  Stated for a chain whose configured interval is the canonical
`DIFFICULTY_ADJUST_INTERVAL = 10` (the default configuration). -/
theorem adjust_difficulty_retarget {τ : Type} (pc : PoWChain τ)
    (hdai : pc.cs.difficulty_adjust_interval = DIFFICULTY_ADJUST_INTERVAL) :
    ((pc.chain.get_height % DIFFICULTY_ADJUST_INTERVAL ≠ 0 ∨ pc.chain.get_height = 0) →
      BlockChain.adjust_difficulty pc = .ok (pc.cs.cur_bits, pc)) ∧
    (∀ (first last : Block τ PoWData) (prev_target : Nat),
      pc.chain.get_height % DIFFICULTY_ADJUST_INTERVAL = 0 →
      pc.chain.get_height ≠ 0 →
      pc.chain.get_block (pc.chain.get_height - DIFFICULTY_ADJUST_INTERVAL) = .ok first →
      pc.chain.get_last_block = .ok last →
      bits_to_target first.header.data.bits = some prev_target →
      BlockChain.adjust_difficulty pc =
        .ok (target_to_bits (rustClamp
              (prev_target * TARGET_TIME_SPAN /
                (max (last.header.timestamp - first.header.timestamp) 1).toNat)
              (prev_target / 4) (prev_target * 4)),
          { pc with cs := { pc.cs with cur_bits := target_to_bits (rustClamp
              (prev_target * TARGET_TIME_SPAN /
                (max (last.header.timestamp - first.header.timestamp) 1).toNat)
              (prev_target / 4) (prev_target * 4)) } })) := by
  constructor
  · intro hstay
    unfold BlockChain.adjust_difficulty
    rw [if_neg (by rw [hdai]; unfold DIFFICULTY_ADJUST_INTERVAL; omega)]
    rw [if_pos (by rw [hdai]; exact hstay)]
  · intro first last prev_target hmod hne hfirst hlast hbits
    unfold BlockChain.adjust_difficulty
    rw [if_neg (by rw [hdai]; unfold DIFFICULTY_ADJUST_INTERVAL; omega)]
    rw [if_neg (by rw [hdai]; push_neg; exact ⟨hmod, hne⟩)]
    have hge : ¬ pc.chain.get_height < DIFFICULTY_ADJUST_INTERVAL := by
      unfold DIFFICULTY_ADJUST_INTERVAL at hmod ⊢
      omega
    rw [if_neg hge]
    rw [hfirst]
    dsimp only
    rw [hlast]
    dsimp only
    rw [hbits]


/-- A freshly bootstrapped PoW chain with the default configuration. -/
def powGenesisChain : PoWChain Unit :=
  { chain := BlockChain.init idHash encPoWData { bits := DEFAULT_DIFFICULTY, nonce := 0 } ()
    cs := PoWConfig.dflt }

/-- C5 (witness): at height `0` retargeting leaves the default bits
untouched and does not change the state. -/
theorem adjust_difficulty_retarget_witness :
    BlockChain.adjust_difficulty powGenesisChain =
      .ok (powGenesisChain.cs.cur_bits, powGenesisChain) :=
  (adjust_difficulty_retarget powGenesisChain rfl).1 (Or.inr rfl)

/-! ## Claim C8: PoS block generation failure modes -/

/-- C8: `PoS::generate_block` fails with the no-validator error whenever the
total stake over `cur_validators` is zero (in particular when the validator
map is empty, as on a fresh chain, whose bootstrapped height is `0`), and
fails with the missing-secret-key error whenever the selected validator's
secret key is absent from `validator_keys`. -/
theorem pos_generate_block_errors {τ : Type} (S : SigPrim) (P : HashPrim)
    (txHash : τ → List Nat) (pos : PoS) (prev : Block τ PoSData)
    (txs : List τ) (r : Nat) (now : Int) :
    ((pos.cur_validators.map (fun p => p.2)).sum = 0 →
      PoS.generate_block S P txHash pos prev txs r now =
        .error "No validator selected") ∧
    (∀ pk, PoS.select_validator pos r = some pk →
      lookupKV pos.validator_keys pk = none →
      PoS.generate_block S P txHash pos prev txs r now =
        .error "No secret key found") ∧
    (pos.cur_validators = [] →
      PoS.generate_block S P txHash pos prev txs r now =
        .error "No validator selected" ∧
      ∀ gtx : τ, (BlockChain.init P encPoSData PoS.genesis_data gtx).get_height = 0) := by
  refine ⟨?_, ?_, ?_⟩
  · intro hzero
    unfold PoS.generate_block PoS.select_validator
    rw [if_pos hzero]
  · intro pk hsel hkey
    unfold PoS.generate_block
    rw [hsel]
    dsimp only
    rw [hkey]
  · intro hempty
    constructor
    · unfold PoS.generate_block PoS.select_validator
      rw [if_pos (by rw [hempty]; rfl)]
    · intro gtx
      rfl

/-- The default PoS state (`PoS::default`): empty validator and key maps. -/
def posEmpty : PoS :=
  { min_stake_amount := 1000, stake_lock_period := 10000, annual_interest_rate := 0
    validator_count := 5, epoch_length := 100, security_deposit := 100
    cur_validators := [], validator_keys := [] }

/-- C8 (witness): on the default (validator-free) state, generating a block
from the genesis block fails with the no-validator error while the fresh
chain's height is `0`. -/
theorem pos_generate_block_errors_witness :
    PoS.generate_block echoSig idHash zeroLeaf posEmpty posPrevBlock [()] 0 0 =
      .error "No validator selected" ∧
    (BlockChain.init idHash encPoSData PoS.genesis_data ()).get_height = 0 := by
  have h := (pos_generate_block_errors echoSig idHash zeroLeaf posEmpty
    posPrevBlock [()] 0 0).2.2 rfl
  exact ⟨h.1, h.2 ()⟩
